import Mathlib

/-!
Verification of the forecasting engine of the Neural-Ads CTV platform.

The definitions below are a shallow embedding, in exact rational
arithmetic, of the Python sources:
  * `server/agents/real_data_forecasting_agent.py` (budget pacer,
    timeline parser, campaign forecast calculator, confidence scorer),
  * `server/agents/forecasting_agent.py` (frequency-impact adjustment,
    campaign-level reach estimation, and the same pacer/parser),
  * `server/data_loader.py` (aggregate index accessors, combined fill
    rate, available-inventory ceiling, CPM estimate, resolver
    confidence, weekly inventory distribution).
Python floats are modelled as `ℚ`, Python ints as `ℤ`/`ℕ`, strings as
`List Char`, dicts as association lists in insertion order, and
fallible arithmetic (`ZeroDivisionError`) as `Option`.
-/

/-- Truncation of a rational toward zero, the semantics of Python's
`int(...)` applied to a float. -/
def ratFloor (q : ℚ) : ℤ := q.num.ediv q.den

/-- Python `int(q)` for a rational `q`: truncation toward zero. -/
def pyTrunc (q : ℚ) : ℤ := if 0 ≤ q then ratFloor q else -(ratFloor (-q))

/-- Truncation `pyTrunc` is the identity on integers. -/
theorem pyTrunc_intCast (z : ℤ) : pyTrunc (z : ℚ) = z := by
  unfold pyTrunc ratFloor
  by_cases h : (0:ℚ) ≤ (z : ℚ)
  · rw [if_pos h]
    simp only [Rat.num_intCast, Rat.den_intCast, Nat.cast_one]
    exact Int.ediv_one z
  · rw [if_neg h]
    rw [show (-(z:ℚ)) = ((-z : ℤ) : ℚ) by push_cast; ring]
    simp only [Rat.num_intCast, Rat.den_intCast, Nat.cast_one]
    rw [show (-z).ediv 1 = -z from Int.ediv_one (-z), neg_neg]

/-- Arithmetic mean of a list of rationals (`numpy.mean`). -/
def listMean (l : List ℚ) : ℚ := l.sum / l.length

/-- Sum of a list scaled by `b * (· / t)` (normalize-then-scale). -/
theorem sum_map_mul_div1 (b t : ℚ) (l : List ℚ) :
    (l.map (fun w => b * (w / t))).sum = b * (l.sum / t) := by
  induction l with
  | nil => simp
  | cons a tl ih =>
    simp only [List.map_cons, List.sum_cons, ih]
    ring

/-- Sum of a list scaled by `b * (· / t) / d`. -/
theorem sum_map_mul_div_div (b t d : ℚ) (l : List ℚ) :
    (l.map (fun w => b * (w / t) / d)).sum = b * (l.sum / t) / d := by
  induction l with
  | nil => simp
  | cons a tl ih =>
    simp only [List.map_cons, List.sum_cons, ih]
    ring

/-- A nonempty list of rationals all at least `c > 0` has positive sum. -/
theorem sum_pos_of_le (c : ℚ) (hc : 0 < c) :
    ∀ (l : List ℚ), (∀ x ∈ l, c ≤ x) → l ≠ [] → 0 < l.sum := by
  intro l
  induction l with
  | nil => intro _ hne; exact absurd rfl hne
  | cons a tl ih =>
    intro h _
    simp only [List.sum_cons]
    have ha : c ≤ a := h a (by simp)
    rcases tl with _ | ⟨b, tl2⟩
    · simpa using lt_of_lt_of_le hc ha
    · have htl : 0 < (b :: tl2).sum :=
        ih (fun x hx => h x (by simp [hx])) (by simp)
      linarith

/-! Budget Pacer:
`_distribute_budget_weekly` in `real_data_forecasting_agent.py`
(lines 412-433) and, identically, `forecasting_agent.py` (336-357). -/

/-- Pacing weight of week `week` (0-based) in an `numWeeks`-week
campaign: even for short campaigns, slower start, controlled finish,
higher mid-campaign spend. -/
def pacingWeight (numWeeks week : ℕ) : ℚ :=
  if numWeeks ≤ 2 then 1
  else if week = 0 then 8/10
  else if week = numWeeks - 1 then 9/10
  else 11/10

/-- The list of pacing weights in week order. -/
def pacingWeights (numWeeks : ℕ) : List ℚ :=
  (List.range numWeeks).map (pacingWeight numWeeks)

/-- Embedding of `_distribute_budget_weekly`: normalize the pacing weights by their
sum and multiply by the total budget. -/
def distributeBudgetWeekly (totalBudget : ℚ) (numWeeks : ℕ) : List ℚ :=
  let ws := pacingWeights numWeeks
  let totalWeight := ws.sum
  ws.map (fun w => totalBudget * (w / totalWeight))

/-- Every pacing weight is at least `8/10`. -/
theorem pacingWeight_ge (n w : ℕ) : (8:ℚ)/10 ≤ pacingWeight n w := by
  unfold pacingWeight
  split_ifs <;> norm_num

/-- For `n ≥ 1` the pacing-weight sum is positive. -/
theorem pacingWeights_sum_pos (n : ℕ) (hn : 1 ≤ n) :
    0 < (pacingWeights n).sum := by
  apply sum_pos_of_le ((8:ℚ)/10) (by norm_num)
  · intro x hx
    rcases List.mem_map.mp hx with ⟨w, _, rfl⟩
    exact pacingWeight_ge n w
  · unfold pacingWeights
    simp only [ne_eq, List.map_eq_nil_iff, List.range_eq_nil]
    omega

/-- Claim C2: for every budget `b > 0` and integer `n ≥ 1` the Budget
Pacer returns exactly `n` ordered allocations, which are the fixed
pacing weights normalized by their sum and multiplied by the budget,
and their sum equals the budget exactly (in exact arithmetic). -/
theorem budget_pacer_sum (b : ℚ) (n : ℕ) (hb : 0 < b) (hn : 1 ≤ n) :
    (distributeBudgetWeekly b n).length = n ∧
    (distributeBudgetWeekly b n).sum = b ∧
    distributeBudgetWeekly b n =
      (List.range n).map (fun w => b * (pacingWeight n w / (pacingWeights n).sum)) := by
  refine ⟨?_, ?_, ?_⟩
  · unfold distributeBudgetWeekly pacingWeights
    simp
  · unfold distributeBudgetWeekly
    rw [sum_map_mul_div1]
    rw [div_self (ne_of_gt (pacingWeights_sum_pos n hn)), mul_one]
  · unfold distributeBudgetWeekly pacingWeights
    simp [List.map_map, Function.comp]

/-- Witness for C2 at budget 280000 and 4 weeks. -/
theorem budget_pacer_sum_witness :
    (distributeBudgetWeekly 280000 4).length = 4 ∧
    (distributeBudgetWeekly 280000 4).sum = 280000 :=
  ⟨(budget_pacer_sum 280000 4 (by norm_num) (by norm_num)).1,
   (budget_pacer_sum 280000 4 (by norm_num) (by norm_num)).2.1⟩

/-! Timeline parser:
`_parse_timeline_to_weeks` in `real_data_forecasting_agent.py`
(lines 400-410) and, identically, `forecasting_agent.py` (322-334). -/

/-- Whether `s` begins with the pattern `p` (character lists). -/
def listStartsWith : List Char → List Char → Bool
  | [], _ => true
  | _ :: _, [] => false
  | a :: ps, b :: ss => a == b && listStartsWith ps ss

/-- Whether `p` occurs as a contiguous substring of `s` (Python's
`p in s` on strings). -/
def listContainsSub (p : List Char) : List Char → Bool
  | [] => listStartsWith p []
  | c :: t => listStartsWith p (c :: t) || listContainsSub p t

/-- The character list of the literal word checked by the parser. -/
def weekChars : List Char := ['w', 'e', 'e', 'k']

/-- First maximal run of consecutive digits in `s` (the first match of
the regex used by `re.findall` followed by taking element 0). -/
def firstDigitRun : List Char → Option (List Char)
  | [] => none
  | c :: t => if c.isDigit then some (c :: t.takeWhile Char.isDigit)
              else firstDigitRun t

/-- Decimal value of a digit run (Python `int` on a digit string). -/
def digitsToNat (l : List Char) : ℕ :=
  l.foldl (fun a c => a * 10 + (c.toNat - 48)) 0

/-- Embedding of `_parse_timeline_to_weeks`: lowercase the timeline, and only when
it contains "week" extract the first embedded number; otherwise (or
when no number is present) default to 4. -/
def parseTimelineToWeeks (timeline : List Char) : ℕ :=
  let lower := timeline.map Char.toLower
  if listContainsSub weekChars lower then
    match firstDigitRun lower with
    | some ds => digitsToNat ds
    | none => 4
  else 4

/-- The character list of the input "6 days". -/
def sixDaysChars : List Char := ['6', ' ', 'd', 'a', 'y', 's']

/-- Counterexample to claim C9: the input "6 days" has 6 as its first
embedded number, yet the parser returns the default 4, because the
number is extracted only when the string contains "week". -/
theorem timeline_parse_counterexample :
    parseTimelineToWeeks sixDaysChars = 4 ∧
    (firstDigitRun (sixDaysChars.map Char.toLower)).map digitsToNat = some 6 ∧
    parseTimelineToWeeks sixDaysChars ≠ 6 := by
  refine ⟨?_, ?_, ?_⟩ <;> decide

/-- Claim C9 (amended): the parsed week count equals the first embedded
number exactly when the lowercased timeline contains the substring
"week" and contains a digit; in every other case it equals 4. Parsing
is a total function, so it never raises. -/
theorem timeline_parse_weeks (s : List Char) :
    (∀ ds, listContainsSub weekChars (s.map Char.toLower) = true →
      firstDigitRun (s.map Char.toLower) = some ds →
      parseTimelineToWeeks s = digitsToNat ds) ∧
    ((listContainsSub weekChars (s.map Char.toLower) = false ∨
      firstDigitRun (s.map Char.toLower) = none) →
      parseTimelineToWeeks s = 4) := by
  unfold parseTimelineToWeeks
  constructor
  · intro ds hweek hrun
    rw [if_pos hweek, hrun]
  · intro h
    rcases h with h | h
    · rw [if_neg (by simp [h])]
    · by_cases hweek : listContainsSub weekChars (s.map Char.toLower) = true
      · rw [if_pos hweek, h]
      · rw [if_neg hweek]

/-- The character list of the input "4 weeks". -/
def fourWeeksChars : List Char := ['4', ' ', 'w', 'e', 'e', 'k', 's']

/-- Witness for C9 (amended) on the input "4 weeks". -/
theorem timeline_parse_weeks_witness :
    parseTimelineToWeeks fourWeeksChars = digitsToNat ['4'] :=
  (timeline_parse_weeks fourWeeksChars).1 ['4'] (by decide) (by decide)

/-! Frequency impact:
`_calculate_frequency_impact` in `forecasting_agent.py` (133-146) and
the reach estimation of `_generate_campaign_forecast` (180-215). -/

/-- Result of the reach/frequency adjustment. -/
structure FrequencyImpact where
  reach : ℚ
  frequency : ℚ

/-- Embedding of `_calculate_frequency_impact`: a missing (or falsy, i.e. zero)
target frequency keeps the base reach with default frequency 2.5;
otherwise the base reach is scaled by a band multiplier, clamped from
below by 70% of the base reach, and the supplied target frequency is
reported back unchanged. -/
def calculateFrequencyImpact (targetFrequency : Option ℚ) (baseReach : ℚ) :
    FrequencyImpact :=
  match targetFrequency with
  | none => ⟨baseReach, 5/2⟩
  | some tf =>
    if tf = 0 then ⟨baseReach, 5/2⟩
    else
      let adjustedReach :=
        if 3 ≤ tf then baseReach * (85/100)
        else if 5/2 ≤ tf then baseReach * (95/100)
        else baseReach * (105/100)
      ⟨max adjustedReach (baseReach * (7/10)), tf⟩

/-- Campaign-level reach and frequency from total impressions (in
millions), as computed by `_generate_campaign_forecast` of
`forecasting_agent.py`: `base_reach = min(int(total*1000*0.6), 5*10^7)`
followed by the frequency-impact adjustment and `int` truncation. -/
def campaignReachFrequency (totalImpressionsMM : ℚ)
    (targetFrequency : Option ℚ) : ℤ × ℚ :=
  let baseReach : ℤ := min (pyTrunc (totalImpressionsMM * 1000 * (6/10))) 50000000
  let fd := calculateFrequencyImpact targetFrequency (baseReach : ℚ)
  (pyTrunc fd.reach, fd.frequency)

/-- Claim C8 (amended): for every supplied (nonzero) target frequency
the reach is the base reach scaled by 0.85 when `tf ≥ 3`, by 0.95 when
`2.5 ≤ tf < 3`, and by 1.05 when `tf < 2.5`, clamped from below by 0.7
times the base reach; the reported frequency is the supplied target
frequency itself, not a recomputation from the adjusted reach. -/
theorem frequency_impact_adjustment (tf baseReach : ℚ) (htf : tf ≠ 0) :
    (calculateFrequencyImpact (some tf) baseReach).reach =
      max (baseReach *
        (if 3 ≤ tf then 85/100 else if 5/2 ≤ tf then 95/100 else 105/100))
        (baseReach * (7/10)) ∧
    (calculateFrequencyImpact (some tf) baseReach).frequency = tf := by
  simp only [calculateFrequencyImpact, if_neg htf]
  split_ifs <;> simp

/-- Witness for C8 (amended) at target frequency 2 and base reach 100. -/
theorem frequency_impact_adjustment_witness :
    (calculateFrequencyImpact (some 2) 100).reach =
      max ((100:ℚ) *
        (if (3:ℚ) ≤ 2 then 85/100 else if (5:ℚ)/2 ≤ 2 then 95/100 else 105/100))
        (100 * (7/10)) ∧
    (calculateFrequencyImpact (some 2) 100).frequency = 2 :=
  frequency_impact_adjustment 2 100 (by norm_num)

/-- Counterexample to claim C8 as stated: at campaign impressions of
1.0 million and target frequency 2, the adjusted reach is 630 and the
reported frequency is the supplied 2 - not the ratio of final
impressions to adjusted reach, in either raw units or millions. -/
theorem frequency_not_recomputed_counterexample :
    campaignReachFrequency 1 (some 2) = (630, 2) ∧
    (2 : ℚ) ≠ 1 * 1000000 / ((630 : ℤ) : ℚ) ∧
    (2 : ℚ) ≠ 1 / ((630 : ℤ) : ℚ) := by
  refine ⟨?_, by norm_num, by norm_num⟩
  have hbase : min (pyTrunc (1 * 1000 * (6/10) : ℚ)) 50000000 = (600:ℤ) := by
    rw [show (1 * 1000 * (6/10) : ℚ) = ((600:ℤ):ℚ) by norm_num, pyTrunc_intCast]
    norm_num
  have himpact : calculateFrequencyImpact (some 2) ((600:ℤ) : ℚ) =
      ⟨((630:ℤ) : ℚ), 2⟩ := by
    simp only [calculateFrequencyImpact]
    rw [if_neg (by norm_num : ¬(2:ℚ) = 0)]
    rw [if_neg (by norm_num : ¬(3:ℚ) ≤ 2), if_neg (by norm_num : ¬(5:ℚ)/2 ≤ 2)]
    have h1 : ((600:ℤ):ℚ) * (105/100) = ((630:ℤ):ℚ) := by push_cast; norm_num
    have h2 : max (((630:ℤ):ℚ)) (((600:ℤ):ℚ) * (7/10)) = ((630:ℤ):ℚ) := by
      apply max_eq_left; push_cast; norm_num
    rw [h1, h2]
  simp only [campaignReachFrequency, hbase, himpact]
  rw [pyTrunc_intCast]

/-! Weekly inventory distribution:
`_distribute_inventory_weekly` in `data_loader.py` (lines 388-401).
The per-week draw of `np.random.uniform(-0.1, 0.1)` is modelled as an
explicit sequence `draws` of rational numbers. -/

/-- Weekly multiplier: `0.85 + (week % 2) * 0.3` plus the random draw,
clamped into `[0.5, 1.5]`. -/
def weeklyMultiplier (draws : ℕ → ℚ) (week : ℕ) : ℚ :=
  max (1/2) (min (3/2) (85/100 + ((week % 2 : ℕ) : ℚ) * (3/10) + draws week))

/-- The clamped multipliers in week order. -/
def weeklyMultipliers (draws : ℕ → ℚ) (weeks : ℕ) : List ℚ :=
  (List.range weeks).map (weeklyMultiplier draws)

/-- Embedding of `_distribute_inventory_weekly`: normalize the multipliers by their
sum, scale by total inventory and report each week in millions. -/
def distributeInventoryWeekly (draws : ℕ → ℚ) (totalInventory : ℤ)
    (weeks : ℕ) : List ℚ :=
  let ms := weeklyMultipliers draws weeks
  let totalMultiplier := ms.sum
  ms.map (fun m => (totalInventory : ℚ) * (m / totalMultiplier) / 1000000)

/-- Every weekly multiplier lies in `[1/2, 3/2]`. -/
theorem weeklyMultiplier_bounds (draws : ℕ → ℚ) (w : ℕ) :
    1/2 ≤ weeklyMultiplier draws w ∧ weeklyMultiplier draws w ≤ 3/2 := by
  unfold weeklyMultiplier
  exact ⟨le_max_left _ _, max_le (by norm_num) (min_le_left _ _)⟩

/-- For at least one week the multiplier sum is positive. -/
theorem weeklyMultipliers_sum_pos (draws : ℕ → ℚ) (weeks : ℕ)
    (hw : 1 ≤ weeks) : 0 < (weeklyMultipliers draws weeks).sum := by
  apply sum_pos_of_le ((1:ℚ)/2) (by norm_num)
  · intro x hx
    rcases List.mem_map.mp hx with ⟨w, _, rfl⟩
    exact (weeklyMultiplier_bounds draws w).1
  · unfold weeklyMultipliers
    simp only [ne_eq, List.map_eq_nil_iff, List.range_eq_nil]
    omega

/-- The weekly inventory entries always sum to the full inventory in
millions, independently of the draws. -/
theorem distributeInventoryWeekly_sum (draws : ℕ → ℚ) (T : ℤ)
    (weeks : ℕ) (hw : 1 ≤ weeks) :
    (distributeInventoryWeekly draws T weeks).sum = (T : ℚ) / 1000000 := by
  unfold distributeInventoryWeekly
  rw [sum_map_mul_div_div]
  rw [div_self (ne_of_gt (weeklyMultipliers_sum_pos draws weeks hw)), mul_one]

/-- Claim C10: for every inventory `T ≥ 0`, week count `N ≥ 1` and
every sequence of per-week draws, the weekly inventory distribution
has exactly `N` entries, each multiplier is clamped to `[0.5, 1.5]`,
the entries are the normalized multipliers scaled by `T` in millions,
and they always sum to `T / 1,000,000`. -/
theorem weekly_inventory_distribution (draws : ℕ → ℚ) (T : ℤ) (N : ℕ)
    (hT : 0 ≤ T) (hN : 1 ≤ N) :
    (distributeInventoryWeekly draws T N).length = N ∧
    (∀ m ∈ weeklyMultipliers draws N, 1/2 ≤ m ∧ m ≤ 3/2) ∧
    distributeInventoryWeekly draws T N =
      (weeklyMultipliers draws N).map
        (fun m => (T : ℚ) * (m / (weeklyMultipliers draws N).sum) / 1000000) ∧
    (distributeInventoryWeekly draws T N).sum = (T : ℚ) / 1000000 := by
  refine ⟨?_, ?_, rfl, distributeInventoryWeekly_sum draws T N hN⟩
  · unfold distributeInventoryWeekly weeklyMultipliers
    simp
  · intro m hm
    rcases List.mem_map.mp hm with ⟨w, _, rfl⟩
    exact weeklyMultiplier_bounds draws w

/-- The all-zero draw sequence. -/
def zeroDraws : ℕ → ℚ := fun _ => 0

/-- Witness for C10 with zero draws, one million units and 4 weeks. -/
theorem weekly_inventory_distribution_witness :
    (distributeInventoryWeekly zeroDraws 1000000 4).length = 4 ∧
    (distributeInventoryWeekly zeroDraws 1000000 4).sum =
      ((1000000 : ℤ) : ℚ) / 1000000 :=
  ⟨(weekly_inventory_distribution zeroDraws 1000000 4 (by norm_num) (by norm_num)).1,
   (weekly_inventory_distribution zeroDraws 1000000 4 (by norm_num) (by norm_num)).2.2.2⟩

/-! Forecast Calculator:
The arithmetic core of `_generate_campaign_forecast` in
`real_data_forecasting_agent.py` (lines 475-516). Python raises
`ZeroDivisionError` on `campaign_budget / estimated_cpm` when the
price estimate is zero; this is modelled by returning `none`. All
later divisions are guarded in the source. -/

/-- The numeric fields of a campaign forecast. -/
structure CampaignCalc where
  totalInventoryAvailableMM : ℚ
  forecastedImpressionsMM : ℚ
  fillRatePercent : ℚ
  effectiveCpmDollars : ℚ
  estimatedReach : ℤ
  frequency : ℚ

/-- Campaign forecast arithmetic: demand from budget and CPM, fill-rate
discount, hard inventory cap, guarded fill-rate and effective-CPM
fallbacks, reach at 65% of final impressions, frequency from reach. -/
def generateCampaignCalc (budget cpm fillRate inventoryMM : ℚ) :
    Option CampaignCalc :=
  if cpm = 0 then none
  else
    let totalEstimatedImpressionsMM := budget / cpm * 1000 / 1000000
    let forecastedMM := totalEstimatedImpressionsMM * fillRate
    let finalImpressionsMM := min forecastedMM inventoryMM
    let actualFillRate :=
      if 0 < totalEstimatedImpressionsMM then
        finalImpressionsMM / totalEstimatedImpressionsMM
      else fillRate
    let effectiveCpm :=
      if 0 < finalImpressionsMM then budget / finalImpressionsMM / 1000
      else cpm
    let estimatedReach := pyTrunc (finalImpressionsMM * 1000000 * (65/100))
    let frequency :=
      if 0 < estimatedReach then
        finalImpressionsMM * 1000000 / (estimatedReach : ℚ)
      else 1
    some ⟨inventoryMM, finalImpressionsMM, actualFillRate * 100,
      effectiveCpm, estimatedReach, frequency⟩

/-- Explicit value of the calculator when the price estimate is
nonzero: the single guard on `cpm` taken, all `let`s expanded. -/
theorem generateCampaignCalc_eq (budget cpm fillRate inventoryMM : ℚ)
    (h : cpm ≠ 0) :
    generateCampaignCalc budget cpm fillRate inventoryMM = some
      { totalInventoryAvailableMM := inventoryMM
        forecastedImpressionsMM :=
          min (budget / cpm * 1000 / 1000000 * fillRate) inventoryMM
        fillRatePercent :=
          (if 0 < budget / cpm * 1000 / 1000000 then
            min (budget / cpm * 1000 / 1000000 * fillRate) inventoryMM /
              (budget / cpm * 1000 / 1000000)
          else fillRate) * 100
        effectiveCpmDollars :=
          if 0 < min (budget / cpm * 1000 / 1000000 * fillRate) inventoryMM then
            budget / min (budget / cpm * 1000 / 1000000 * fillRate) inventoryMM / 1000
          else cpm
        estimatedReach :=
          pyTrunc (min (budget / cpm * 1000 / 1000000 * fillRate) inventoryMM
            * 1000000 * (65/100))
        frequency :=
          if 0 < pyTrunc (min (budget / cpm * 1000 / 1000000 * fillRate) inventoryMM
              * 1000000 * (65/100)) then
            min (budget / cpm * 1000 / 1000000 * fillRate) inventoryMM * 1000000 /
              ((pyTrunc (min (budget / cpm * 1000 / 1000000 * fillRate) inventoryMM
                * 1000000 * (65/100)) : ℚ))
          else 1 } := by
  unfold generateCampaignCalc
  rw [if_neg h]

/-- Claim C1: for every budget `B ≥ 0`, price estimate `C > 0`, fill
rate `F ∈ [0,1]` and inventory ceiling `I ≥ 0` the calculator yields a
result whose final impressions equal `min(demanded * F, I)` for the
demanded impressions implied by budget and price, never exceed `I`,
and never exceed the reported total available inventory. -/
theorem forecast_inventory_cap (B C F I : ℚ) (hB : 0 ≤ B) (hC : 0 < C)
    (hF0 : 0 ≤ F) (hF1 : F ≤ 1) (hI : 0 ≤ I) :
    ∃ r, generateCampaignCalc B C F I = some r ∧
      r.forecastedImpressionsMM = min (B / C * 1000 / 1000000 * F) I ∧
      r.forecastedImpressionsMM ≤ I ∧
      r.totalInventoryAvailableMM = I ∧
      r.forecastedImpressionsMM ≤ r.totalInventoryAvailableMM :=
  ⟨_, generateCampaignCalc_eq B C F I (ne_of_gt hC), rfl,
    min_le_right _ _, rfl, min_le_right _ _⟩

/-- Witness for C1 on Scenario B of the spec: budget 1000, CPM 14.40,
fill rate 0.05, inventory 10 million (in millions: 10). -/
theorem forecast_inventory_cap_witness :
    ∃ r, generateCampaignCalc 1000 (144/10) (5/100) 10 = some r ∧
      r.forecastedImpressionsMM =
        min ((1000 : ℚ) / (144/10) * 1000 / 1000000 * (5/100)) 10 ∧
      r.forecastedImpressionsMM ≤ 10 ∧
      r.totalInventoryAvailableMM = 10 ∧
      r.forecastedImpressionsMM ≤ r.totalInventoryAvailableMM :=
  forecast_inventory_cap 1000 (144/10) (5/100) 10 (by norm_num)
    (by norm_num) (by norm_num) (by norm_num) (by norm_num)

/-- Counterexample to claim C7 as stated: a zero price estimate makes
the calculator raise (modelled as `none`) rather than fall back, and a
zero budget (zero demanded impressions) yields a fill-rate percent
equal to the estimate times 100 - here 12 - rather than 0. -/
theorem degenerate_arithmetic_counterexample :
    generateCampaignCalc 100 0 (12/100) 500 = none ∧
    ∃ r, generateCampaignCalc 0 15 (12/100) 500 = some r ∧
      r.fillRatePercent = 12 ∧ r.fillRatePercent ≠ 0 := by
  constructor
  · unfold generateCampaignCalc
    rw [if_pos rfl]
  · refine ⟨_, generateCampaignCalc_eq 0 15 (12/100) 500 (by norm_num), ?_, ?_⟩
    · show (if 0 < (0:ℚ) / 15 * 1000 / 1000000 then
          min ((0:ℚ) / 15 * 1000 / 1000000 * (12/100)) 500 /
            ((0:ℚ) / 15 * 1000 / 1000000)
        else (12:ℚ)/100) * 100 = 12
      rw [if_neg (by norm_num)]
      norm_num
    · show (if 0 < (0:ℚ) / 15 * 1000 / 1000000 then
          min ((0:ℚ) / 15 * 1000 / 1000000 * (12/100)) 500 /
            ((0:ℚ) / 15 * 1000 / 1000000)
        else (12:ℚ)/100) * 100 ≠ 0
      rw [if_neg (by norm_num)]
      norm_num

/-- Claim C7 (amended): whenever the price estimate `C` is nonzero the
calculator returns a defined result; with zero demanded impressions
(zero budget) the fill-rate percent falls back to the fill-rate
estimate times 100, and with no positive final impressions the
effective price falls back to `C`. A zero price estimate, however,
raises before any guard is reached. -/
theorem degenerate_arithmetic_guards (B C F I : ℚ) (hC : C ≠ 0) :
    ∃ r, generateCampaignCalc B C F I = some r ∧
      (B = 0 → r.fillRatePercent = F * 100) ∧
      (¬ 0 < r.forecastedImpressionsMM → r.effectiveCpmDollars = C) := by
  refine ⟨_, generateCampaignCalc_eq B C F I hC, ?_, ?_⟩
  · intro hB0
    show (if 0 < B / C * 1000 / 1000000 then
        min (B / C * 1000 / 1000000 * F) I / (B / C * 1000 / 1000000)
      else F) * 100 = F * 100
    rw [hB0]
    rw [if_neg (by norm_num)]
  · intro hfin
    show (if 0 < min (B / C * 1000 / 1000000 * F) I then
        B / min (B / C * 1000 / 1000000 * F) I / 1000
      else C) = C
    exact if_neg hfin

/-- Witness for C7 (amended) at zero budget, CPM 15, fill rate 0.12,
inventory 500. -/
theorem degenerate_arithmetic_guards_witness :
    ∃ r, generateCampaignCalc 0 15 (12/100) 500 = some r ∧
      ((0:ℚ) = 0 → r.fillRatePercent = (12/100) * 100) ∧
      (¬ 0 < r.forecastedImpressionsMM → r.effectiveCpmDollars = 15) :=
  degenerate_arithmetic_guards 0 15 (12/100) 500 (by norm_num)

/-! Aggregate Index and Targeting Resolver:
`RealDataLoader` in `data_loader.py`: the per-dimension caches built by
`_process_fill_rates` and `_process_inventory_data`, the accessors
`get_fill_rate_for_targeting` / `get_inventory_for_targeting` with
their documented fallbacks, and the combined fill-rate / available
inventory / CPM / confidence calculations. Only the cache fields read
by these code paths are modelled. -/

/-- Targeting criteria: dimension name to list of requested values, in
insertion order (a Python dict of lists). -/
abbrev Criteria := List (List Char × List (List Char))

/-- Association-list lookup (Python dict `get` / `in`). -/
def alookup {α : Type} (l : List (List Char × α)) (k : List Char) : Option α :=
  match l with
  | [] => none
  | (k2, v) :: t => if k2 = k then some v else alookup t k

/-- Cached fill-rate summary of one targeting dimension
(`_processed_fill_rates[t]`): request-count-weighted fill rate, number
of records, and the per-value fill-rate map. -/
structure FillTypeData where
  weightedFillRate : ℚ
  recordsCount : ℕ
  byValue : List (List Char × ℚ)

/-- Cached inventory summary of one targeting dimension
(`_inventory_by_category[t]`): total inventory, average per value, and
the per-value inventory map. -/
structure InvTypeData where
  totalInventory : ℤ
  avgPerValue : ℚ
  byValue : List (List Char × ℤ)

/-- The Aggregate Index: both dimension caches plus the global weighted
fill rate (`get_overall_fill_rate`) and the global total inventory
(`get_total_inventory`). -/
structure RealDataIndex where
  fillRates : List (List Char × FillTypeData)
  inventory : List (List Char × InvTypeData)
  overallFillRate : ℚ
  totalInventory : ℤ

/-- Embedding of `get_fill_rate_for_targeting`: per-value fill rate when the value
is supplied (truthy) and known, else the dimension's weighted fill
rate, else the global weighted fill rate. -/
def getFillRateForTargeting (idx : RealDataIndex) (t : List Char)
    (v : Option (List Char)) : ℚ :=
  match alookup idx.fillRates t with
  | none => idx.overallFillRate
  | some d =>
    match v with
    | some vv =>
      if vv ≠ [] then
        match alookup d.byValue vv with
        | some fr => fr
        | none => d.weightedFillRate
      else d.weightedFillRate
    | none => d.weightedFillRate

/-- Embedding of `get_inventory_for_targeting`: per-value inventory when the value
is supplied (truthy) and known, else the truncated average inventory
per value of the dimension, else 1% of total inventory (truncated). -/
def getInventoryForTargeting (idx : RealDataIndex) (t : List Char)
    (v : Option (List Char)) : ℤ :=
  match alookup idx.inventory t with
  | none => pyTrunc ((idx.totalInventory : ℚ) * (1/100))
  | some d =>
    match v with
    | some vv =>
      if vv ≠ [] then
        match alookup d.byValue vv with
        | some c => c
        | none => pyTrunc d.avgPerValue
      else pyTrunc d.avgPerValue
    | none => pyTrunc d.avgPerValue

/-- Fill-rate contribution of one targeted dimension together with its
aggregation weight: mean of per-value fill rates weighted by the number
of values, or the dimension fill rate with weight 1. -/
def fillRateContribution (idx : RealDataIndex)
    (p : List Char × List (List Char)) : ℚ × ℚ :=
  if p.2 ≠ [] then
    (listMean (p.2.map (fun v => getFillRateForTargeting idx p.1 (some v))),
     (p.2.length : ℚ))
  else (getFillRateForTargeting idx p.1 none, 1)

/-- Embedding of `_calculate_combined_fill_rate`: the weighted average (numpy
`average`) of the dimension contributions, or the global rate for
empty criteria. -/
def calculateCombinedFillRate (idx : RealDataIndex) (criteria : Criteria) : ℚ :=
  if criteria = [] then idx.overallFillRate
  else
    let contribs := criteria.map (fillRateContribution idx)
    if contribs = [] then idx.overallFillRate
    else ((contribs.map (fun p => p.1 * p.2)).sum) /
      ((contribs.map (fun p => p.2)).sum)

/-- Inventory contribution of one targeted dimension: the sum of
per-value inventories when values are requested, else the dimension's
total inventory, with the global total as fallback for an unknown
dimension. -/
def inventoryContribution (idx : RealDataIndex)
    (p : List Char × List (List Char)) : ℤ :=
  if p.2 ≠ [] then
    (p.2.map (fun v => getInventoryForTargeting idx p.1 (some v))).sum
  else
    match alookup idx.inventory p.1 with
    | some d => d.totalInventory
    | none => idx.totalInventory

/-- Embedding of `_calculate_available_inventory`: the running minimum over all
dimension contributions (starting from infinity), or the global total
inventory for empty criteria. -/
def calculateAvailableInventory (idx : RealDataIndex) (criteria : Criteria) : ℤ :=
  match criteria.map (inventoryContribution idx) with
  | [] => idx.totalInventory
  | c :: cs => cs.foldl min c

/-- A left fold of `min` is a lower bound of its inputs. -/
theorem foldl_min_le (l : List ℤ) :
    ∀ (c : ℤ) (x : ℤ), x ∈ c :: l → l.foldl min c ≤ x := by
  induction l with
  | nil =>
    intro c x hx
    simp only [List.mem_singleton] at hx
    simp [hx]
  | cons b t ih =>
    intro c x hx
    simp only [List.foldl_cons]
    rcases List.mem_cons.mp hx with rfl | hx2
    · exact le_trans (ih (min x b) (min x b) (by simp)) (min_le_left _ _)
    · rcases List.mem_cons.mp hx2 with rfl | hx3
      · exact le_trans (ih (min c x) (min c x) (by simp)) (min_le_right _ _)
      · exact ih (min c b) x (by simp [hx3])

/-- A left fold of `min` is one of its inputs. -/
theorem foldl_min_mem (l : List ℤ) :
    ∀ (c : ℤ), l.foldl min c ∈ c :: l := by
  induction l with
  | nil => intro c; simp
  | cons b t ih =>
    intro c
    simp only [List.foldl_cons]
    rcases min_cases c b with ⟨hm, _⟩ | ⟨hm, _⟩ <;> rw [hm]
    · rcases List.mem_cons.mp (ih c) with h | h
      · exact List.mem_cons.mpr (Or.inl h)
      · exact List.mem_cons.mpr (Or.inr (List.mem_cons.mpr (Or.inr h)))
    · rcases List.mem_cons.mp (ih b) with h | h
      · exact List.mem_cons.mpr (Or.inr (List.mem_cons.mpr (Or.inl h)))
      · exact List.mem_cons.mpr (Or.inr (List.mem_cons.mpr (Or.inr h)))

/-- Claim C6: for empty criteria the inventory ceiling is the global
total inventory; for non-empty criteria it is the minimum over the
targeted dimensions of their inventory contributions (sum of per-value
inventories when values are requested, else the dimension's total
inventory): it is a lower bound of all contributions and is attained
by one of them. -/
theorem targeting_inventory_ceiling (idx : RealDataIndex) (criteria : Criteria) :
    (criteria = [] → calculateAvailableInventory idx criteria = idx.totalInventory) ∧
    (criteria ≠ [] →
      (∀ p ∈ criteria,
        calculateAvailableInventory idx criteria ≤ inventoryContribution idx p) ∧
      (∃ p ∈ criteria,
        calculateAvailableInventory idx criteria = inventoryContribution idx p)) := by
  constructor
  · intro h
    subst h
    rfl
  · intro hne
    rcases criteria with _ | ⟨q, qs⟩
    · exact absurd rfl hne
    constructor
    · intro p hp
      show (List.map (inventoryContribution idx) qs).foldl min
        (inventoryContribution idx q) ≤ inventoryContribution idx p
      apply foldl_min_le
      rcases List.mem_cons.mp hp with rfl | hp2
      · simp
      · exact List.mem_cons.mpr (Or.inr (List.mem_map_of_mem _ hp2))
    · have hmem := foldl_min_mem (List.map (inventoryContribution idx) qs)
        (inventoryContribution idx q)
      rcases List.mem_cons.mp hmem with h | h
      · exact ⟨q, by simp, h⟩
      · rcases List.mem_map.mp h with ⟨p, hp, hval⟩
        exact ⟨p, List.mem_cons.mpr (Or.inr hp), hval.symm⟩

/-- The characters of the dimension name "network". -/
def networkChars : List Char := ['n', 'e', 't', 'w', 'o', 'r', 'k']

/-- The characters of the dimension name "zip". -/
def zipChars : List Char := ['z', 'i', 'p']

/-- The characters of the dimension name "genre". -/
def genreChars : List Char := ['g', 'e', 'n', 'r', 'e']

/-- The characters of the dimension name "content". -/
def contentChars : List Char := ['c', 'o', 'n', 't', 'e', 'n', 't']

/-- One step of `_estimate_cpm`: the selectivity multiplier gains a
premium factor for network, zip and genre/content targeting with
requested values. -/
def cpmStep (m : ℚ) (p : List Char × List (List Char)) : ℚ :=
  if p.1 = networkChars ∧ p.2 ≠ [] then m * (12/10)
  else if p.1 = zipChars ∧ p.2 ≠ [] then m * (11/10)
  else if (p.1 = genreChars ∨ p.1 = contentChars) ∧ p.2 ≠ [] then m * (115/100)
  else m

/-- Embedding of `_estimate_cpm`: base CPM of 12 scaled by the compound selectivity
multiplier. -/
def estimateCpm (criteria : Criteria) : ℚ := 12 * criteria.foldl cpmStep 1

/-- Each CPM step preserves positivity. -/
theorem cpmStep_pos (m : ℚ) (p : List Char × List (List Char))
    (hm : 0 < m) : 0 < cpmStep m p := by
  unfold cpmStep
  split_ifs <;> first
    | exact mul_pos hm (by norm_num)
    | exact hm

/-- The folded selectivity multiplier stays positive. -/
theorem foldl_cpmStep_pos (l : Criteria) :
    ∀ m : ℚ, 0 < m → 0 < l.foldl cpmStep m := by
  induction l with
  | nil => intro m hm; simpa using hm
  | cons p t ih =>
    intro m hm
    simp only [List.foldl_cons]
    exact ih _ (cpmStep_pos m p hm)

/-- The estimated CPM is always positive (at least the base of 12
scaled by positive factors), so the demand division never raises. -/
theorem estimateCpm_pos (criteria : Criteria) : 0 < estimateCpm criteria :=
  mul_pos (by norm_num) (foldl_cpmStep_pos criteria 1 (by norm_num))

/-! Confidence Scorer:
`_calculate_confidence` in `data_loader.py` (370-386) produces the
resolver confidence carried as `confidence_score`;
`_calculate_real_data_confidence` in `real_data_forecasting_agent.py`
(371-398) turns it into the final confidence, with a mock-data branch
when no fill data is loaded. -/

/-- Per-dimension resolver confidence: `min(0.95, 0.5 + records/1000)`
for a known dimension, 0.6 for an unknown one. -/
def confidenceScorePerType (idx : RealDataIndex)
    (p : List Char × List (List Char)) : ℚ :=
  match alookup idx.fillRates p.1 with
  | some d => min (95/100) (1/2 + (d.recordsCount : ℚ) / 1000)
  | none => 6/10

/-- Embedding of `_calculate_confidence`: 0.85 for empty criteria, else the mean of
the per-dimension scores (0.75 if, impossibly, none accumulate). -/
def calculateConfidence (idx : RealDataIndex) (criteria : Criteria) : ℚ :=
  if criteria = [] then 85/100
  else
    let scores := criteria.map (confidenceScorePerType idx)
    if scores = [] then 3/4 else listMean scores

/-- The per-dimension adjustments of the real-data confidence pass:
`min(0.95, 0.7 + records/1000)` for each targeted dimension known to
the fill cache. -/
def confidenceAdjustments (idx : RealDataIndex) (criteria : Criteria) : List ℚ :=
  criteria.filterMap (fun p => (alookup idx.fillRates p.1).map
    (fun d => min (95/100) (7/10 + (d.recordsCount : ℚ) / 1000)))

/-- Embedding of `_calculate_real_data_confidence`: without loaded fill data the
base confidence is lowered by 0.2 and floored at 0.6; with loaded data
the base is averaged with the adjustments and clamped to
`[0.6, 0.98]`. -/
def calculateRealDataConfidence :
    Bool → RealDataIndex → Criteria → ℚ → ℚ
  | false, _, _, baseConfidence => max (6/10) (baseConfidence - 2/10)
  | true, idx, criteria, baseConfidence =>
    let adjs := confidenceAdjustments idx criteria
    if adjs ≠ [] then
      min (98/100) (max (6/10)
        ((baseConfidence + adjs.sum) / (1 + (adjs.length : ℚ))))
    else min (98/100) (max (6/10) baseConfidence)

/-- The synthetic defaults used when no tabular data loads: fill rate
0.12 and one billion units of inventory, with empty caches. -/
def syntheticIndex : RealDataIndex := ⟨[], [], 12/100, 1000000000⟩

/-- The confidence reachable through the engine's entry point: on the
mock path the base confidence is the fixed 0.75 of
`_generate_mock_forecasting_info`; on the real-data path it is the
resolver confidence `confidence_score` from
`get_forecasting_data_for_campaign`. -/
def pipelineConfidence (loader : Option RealDataIndex) (criteria : Criteria) : ℚ :=
  match loader with
  | none => calculateRealDataConfidence false syntheticIndex criteria (3/4)
  | some idx =>
    calculateRealDataConfidence true idx criteria (calculateConfidence idx criteria)

/-- Claim C4: every confidence produced through the engine's entry
point, on the real-data path and on the mock fallback path alike, lies
in the closed interval `[0.6, 0.98]`. -/
theorem confidence_bounds (loader : Option RealDataIndex) (criteria : Criteria) :
    6/10 ≤ pipelineConfidence loader criteria ∧
    pipelineConfidence loader criteria ≤ 98/100 := by
  cases loader with
  | none =>
    simp only [pipelineConfidence, calculateRealDataConfidence]
    constructor
    · exact le_max_left _ _
    · rw [max_eq_left (by norm_num)]
      norm_num
  | some idx =>
    simp only [pipelineConfidence, calculateRealDataConfidence]
    split_ifs <;>
      exact ⟨le_min (by norm_num) (le_max_left _ _), min_le_left _ _⟩

/-- The confidence formula stated by the specification: the mean of a
resolver confidence and a data-source confidence, clamped to
`[0.6, 0.98]`. -/
def specConfidenceFormula (resolverConfidence dataSourceConfidence : ℚ) : ℚ :=
  min (98/100) (max (6/10) ((resolverConfidence + dataSourceConfidence) / 2))

/-- Index for the confidence counterexample: one known dimension
"network" with 100 fill-rate records. -/
def confIdx : RealDataIndex :=
  ⟨[(networkChars, ⟨12/100, 100, []⟩)], [], 12/100, 1000000⟩

/-- Criteria for the confidence counterexample: target the known
dimension "network" with one value. -/
def confCriteria : Criteria := [(networkChars, [['x']])]

/-- Counterexample to claim C5: with one targeted dimension backed by
100 records, the code produces `(0.6 + 0.8)/2 = 0.7`, while the spec's
formula `clamp(mean(resolverConfidence, 0.85))` gives
`(0.6 + 0.85)/2 = 0.725`; no fixed 0.85 data-source term exists in the
code. -/
theorem confidence_formula_counterexample :
    pipelineConfidence (some confIdx) confCriteria = 7/10 ∧
    specConfidenceFormula (calculateConfidence confIdx confCriteria) (85/100) = 29/40 ∧
    pipelineConfidence (some confIdx) confCriteria ≠
      specConfidenceFormula (calculateConfidence confIdx confCriteria) (85/100) := by
  have hbase : calculateConfidence confIdx confCriteria = 3/5 := by
    simp only [calculateConfidence, confIdx, confCriteria, confidenceScorePerType,
      alookup, listMean, List.map_cons, List.map_nil]
    norm_num [min_def]
  have hadjs : confidenceAdjustments confIdx confCriteria = [4/5] := by
    simp only [confidenceAdjustments, confIdx, confCriteria, alookup,
      List.filterMap_cons]
    norm_num [min_def]
  refine ⟨?_, ?_, ?_⟩
  · simp only [pipelineConfidence, calculateRealDataConfidence, hbase, hadjs]
    norm_num [min_def, max_def]
  · rw [hbase]
    simp only [specConfidenceFormula]
    norm_num [min_def, max_def]
  · simp only [pipelineConfidence, calculateRealDataConfidence, hbase, hadjs,
      specConfidenceFormula]
    norm_num [min_def, max_def]

/-- Claim C5 (amended): on the real-data path the final confidence is
`clamp((resolverConfidence + sum of per-dimension adjustments) /
(1 + number of adjustments), 0.6, 0.98)`, the adjustments being
`min(0.95, 0.7 + records/1000)` for each targeted dimension known to
the index; on the fallback path it is `max(0.6, 0.75 - 0.2) = 0.6`.
No fixed 0.85/0.65 data-source confidence enters the computation. -/
theorem confidence_actual_formula (idx : RealDataIndex) (criteria : Criteria) :
    pipelineConfidence (some idx) criteria =
      min (98/100) (max (6/10)
        ((calculateConfidence idx criteria + (confidenceAdjustments idx criteria).sum) /
          (1 + ((confidenceAdjustments idx criteria).length : ℚ)))) ∧
    pipelineConfidence none criteria = 6/10 := by
  constructor
  · simp only [pipelineConfidence, calculateRealDataConfidence]
    by_cases h : confidenceAdjustments idx criteria = []
    · rw [if_neg (by simp [h]), h]
      simp
    · rw [if_pos h]
  · simp only [pipelineConfidence, calculateRealDataConfidence]
    rw [max_eq_left (by norm_num)]

/-- Witness index for the inventory-ceiling claim: one known inventory
dimension "network" with two values, global total 50000. -/
def c6Idx : RealDataIndex :=
  ⟨[], [(networkChars, ⟨10000, 2500, [(['h'], 4000), (['r'], 6000)]⟩)],
    12/100, 50000⟩

/-- Witness criteria: one valued dimension and one unconstrained
unknown dimension. -/
def c6Criteria : Criteria := [(networkChars, [['h']]), (zipChars, [])]

/-- Witness for C6 on `c6Idx`/`c6Criteria`. -/
theorem targeting_inventory_ceiling_witness :
    (∀ p ∈ c6Criteria,
      calculateAvailableInventory c6Idx c6Criteria ≤ inventoryContribution c6Idx p) ∧
    (∃ p ∈ c6Criteria,
      calculateAvailableInventory c6Idx c6Criteria = inventoryContribution c6Idx p) :=
  (targeting_inventory_ceiling c6Idx c6Criteria).2 (by decide)

/-! The forecast pipeline:
`generate_forecast` composed with `get_forecasting_data_for_campaign`
and `_generate_campaign_forecast`: the campaign date window is derived
from the current clock (`datetime.now()`), modelled as an explicit
day-number argument `today` whose weekday is `today % 7`; the random
draws of the weekly inventory distribution are the explicit `draws`
sequence. -/

/-- The campaign date window of `_generate_campaign_forecast` (lines
465-473): start on the next Monday strictly after `today`, end after
`weeks` whole weeks. -/
def campaignWindow (today : ℤ) (weeks : ℕ) : ℤ × ℤ :=
  let weekday := today % 7
  let d0 := 7 - weekday
  let daysAhead := if d0 ≤ 0 then d0 + 7 else d0
  let start := today + daysAhead
  (start, start + (weeks : ℤ) * 7 - 1)

/-- The fields of a `RealDataForecastingResult` that the engine
reports: the campaign date window, the numeric campaign forecast, the
final confidence and the targeting breakdown. -/
structure ForecastOutput where
  campaignStart : ℤ
  campaignEnd : ℤ
  totalInventoryAvailableMM : ℚ
  forecastedImpressionsMM : ℚ
  fillRatePercent : ℚ
  effectiveCpmDollars : ℚ
  estimatedReach : ℤ
  frequency : ℚ
  confidence : ℚ
  targetingBreakdown : List (List Char × ℚ × ℤ)

/-- One run of forecast generation on the real-data path, as a
function of the clock (`today`), the random draws, the Aggregate Index
and the request. -/
def runForecast (today : ℤ) (draws : ℕ → ℚ) (idx : RealDataIndex)
    (criteria : Criteria) (budget : ℚ) (weeks : ℕ) : Option ForecastOutput :=
  let fillRate := calculateCombinedFillRate idx criteria
  let inv := calculateAvailableInventory idx criteria
  let cpm := estimateCpm criteria
  let weekly := distributeInventoryWeekly draws inv weeks
  let totalWeeklyInventory := weekly.sum
  let window := campaignWindow today weeks
  (generateCampaignCalc budget cpm fillRate totalWeeklyInventory).map (fun r =>
    { campaignStart := window.1
      campaignEnd := window.2
      totalInventoryAvailableMM := r.totalInventoryAvailableMM
      forecastedImpressionsMM := r.forecastedImpressionsMM
      fillRatePercent := r.fillRatePercent
      effectiveCpmDollars := r.effectiveCpmDollars
      estimatedReach := r.estimatedReach
      frequency := r.frequency
      confidence := calculateRealDataConfidence true idx criteria
        (calculateConfidence idx criteria)
      targetingBreakdown := criteria.map (fun p =>
        (p.1, getFillRateForTargeting idx p.1 none,
          getInventoryForTargeting idx p.1 none)) })

/-- Claim C3 (amended, part 1): the random draws of the weekly
inventory distribution never influence the forecast result, because
only the draw-independent sum of the distribution is consumed. -/
theorem forecast_draw_invariance (today : ℤ) (d1 d2 : ℕ → ℚ)
    (idx : RealDataIndex) (criteria : Criteria) (budget : ℚ) (weeks : ℕ) :
    runForecast today d1 idx criteria budget weeks =
    runForecast today d2 idx criteria budget weeks := by
  have hsum :
      (distributeInventoryWeekly d1 (calculateAvailableInventory idx criteria) weeks).sum =
      (distributeInventoryWeekly d2 (calculateAvailableInventory idx criteria) weeks).sum := by
    cases weeks with
    | zero =>
      simp [distributeInventoryWeekly, weeklyMultipliers]
    | succ n =>
      rw [distributeInventoryWeekly_sum d1 _ _ (by omega),
        distributeInventoryWeekly_sum d2 _ _ (by omega)]
  simp only [runForecast]
  rw [hsum]

/-- Index for the time-dependence counterexample: empty caches, global
fill rate 0.12 and one million units of inventory. -/
def detIdx : RealDataIndex := ⟨[], [], 12/100, 1000000⟩

/-- Counterexample to claim C3 as stated: two runs on the identical
request and identical index, differing only in the clock (day 0 versus
day 7), return different results - the campaign date window moves with
`datetime.now()`. -/
theorem forecast_time_dependence_counterexample :
    (runForecast 0 zeroDraws detIdx [] 1000 4).map ForecastOutput.campaignStart =
      some 7 ∧
    (runForecast 7 zeroDraws detIdx [] 1000 4).map ForecastOutput.campaignStart =
      some 14 ∧
    runForecast 0 zeroDraws detIdx [] 1000 4 ≠
      runForecast 7 zeroDraws detIdx [] 1000 4 := by
  have hcpm : estimateCpm ([] : Criteria) ≠ 0 := ne_of_gt (estimateCpm_pos [])
  have hsome := generateCampaignCalc_eq 1000 (estimateCpm [])
    (calculateCombinedFillRate detIdx [])
    ((distributeInventoryWeekly zeroDraws
      (calculateAvailableInventory detIdx []) 4).sum) hcpm
  have e1 : (runForecast 0 zeroDraws detIdx [] 1000 4).map
      ForecastOutput.campaignStart = some 7 := by
    simp only [runForecast]
    rw [hsome]
    simp only [Option.map_map, Option.map_some', Function.comp]
    show some ((campaignWindow 0 4).1) = some 7
    decide
  have e2 : (runForecast 7 zeroDraws detIdx [] 1000 4).map
      ForecastOutput.campaignStart = some 14 := by
    simp only [runForecast]
    rw [hsome]
    simp only [Option.map_map, Option.map_some', Function.comp]
    show some ((campaignWindow 7 4).1) = some 14
    decide
  refine ⟨e1, e2, ?_⟩
  intro h
  rw [h, e2] at e1
  simp at e1
